import Mathlib

/-!
Verification of the exhaustive-pagination fetcher (gh_fetch.py).

The script fetches GitHub issues/PRs through the gh CLI with exhaustive
pagination, deduplicates across pages by item number, optionally filters by
recency, and renders results.  We embed the pure core of the script:

* `Item` mirrors the JSON fields requested from the CLI
  (number, title, state, createdAt, updatedAt, labels, author).
* `fetch_items_page` mirrors the error handling of the page fetcher:
  non-zero exit or malformed JSON both yield an empty list.
* `fetchLoop` / `fetch_all_items` mirror the pagination loop of
  fetch_all_items, instrumented with the trace of issued search filters,
  the trace of returned pages, and whether the 20-page safety branch fired.
* `recencyFilter` mirrors the post-pagination time filter (the Python code
  compares ISO timestamp strings lexicographically; we model timestamps as
  strings with exactly that lexicographic comparison).
* `rowOfItem` / `display_table` mirror the table presenter.
* `get_current_repo` / `resolve_repo` / `issues_cmd` mirror repository
  resolution and the command wrapper.

External effects (the gh subprocess) are modelled by a `Backend` function
from the query index and the search-filter string to the raw subprocess
outcome, so that any sequence of page responses (including failures) can be
expressed.
-/

set_option maxRecDepth 100000

namespace GhFetch

/-- Lexicographic (code-point) comparison of character lists, mirroring
Python's string less-or-equal used by the script's timestamp comparisons. -/
def charListLe : List Char → List Char → Bool
  | [], _ => true
  | _ :: _, [] => false
  | a :: as, b :: bs => if a < b then true else if a = b then charListLe as bs else false

/-- Lexicographic (code-point) strict comparison of character lists. -/
def charListLt : List Char → List Char → Bool
  | [], [] => false
  | [], _ :: _ => true
  | _ :: _, [] => false
  | a :: as, b :: bs => if a < b then true else if a = b then charListLt as bs else false

/-- Python string comparison a <= b (lexicographic over code points). -/
def strLe (a b : String) : Bool := charListLe a.data b.data

/-- Python string comparison a < b (lexicographic over code points). -/
def strLt (a b : String) : Bool := charListLt a.data b.data

/-- Python slice s[:n] (first n characters). -/
def strTake (s : String) (n : Nat) : String := ⟨s.data.take n⟩

/-- Python str.strip(): remove leading and trailing whitespace. -/
def strip (s : String) : String :=
  ⟨((s.data.dropWhile Char.isWhitespace).reverse.dropWhile Char.isWhitespace).reverse⟩

/-- Python ", ".join(names), as used for the label column. -/
def joinComma : List String → String
  | [] => ""
  | [s] => s
  | s :: rest => s ++ ", " ++ joinComma rest

/-- One issue or pull request, with the JSON fields the script requests:
number,title,state,createdAt,updatedAt,labels,author (labels reduced to
their names, author to its login, as the script reads them). -/
structure Item where
  number : Nat
  title : String
  state : String
  createdAt : String
  updatedAt : String
  labels : List String
  author : String
deriving DecidableEq, Repr

/-- Maximum page size requested from the API (BATCH_SIZE = 500). -/
def BATCH_SIZE : Nat := 500

/-- Outcome of one gh subprocess page query: exit code 0 with a parsed JSON
list, a non-zero exit, or unparseable stdout. -/
inductive GhResult where
  | ok : List Item → GhResult
  | exitError : GhResult
  | parseError : GhResult
deriving DecidableEq, Repr

/-- Error handling of fetch_items_page: a non-zero exit code is logged and
yields [], and a JSONDecodeError is logged and yields []; otherwise the
parsed item list is returned. -/
def fetch_items_page : GhResult → List Item
  | GhResult.ok items => items
  | GhResult.exitError => []
  | GhResult.parseError => []

/-- A backend: for each query (numbered 0,1,2,... in the order issued, with
the search-filter string that query carries; "" means no --search flag),
the raw outcome of the gh subprocess call. -/
def Backend : Type := Nat → String → GhResult

/-- The item list a given query actually produces, after the error handling
of fetch_items_page. -/
def fetchPage (gh : Backend) (q : Nat) (search_filter : String) : List Item :=
  fetch_items_page (gh q search_filter)

/-- Result of fetch_all_items, instrumented with the trace of issued search
filters (queries), the trace of returned pages (pages), and whether the
20-page safety branch fired (capHit). -/
structure FetchResult where
  items : List Item
  queries : List String
  pages : List (List Item)
  capHit : Bool
deriving DecidableEq, Repr

/-- The pagination while-loop of fetch_all_items.  Arguments mirror the
Python locals: current page counter, accumulated items, plus the
instrumentation traces and the length of the page just fetched.  The fuel
argument only bounds recursion depth; the loop itself exits through the
same conditions as the source (page count, short page, empty page, missing
createdAt), and with fuel 20 starting at page 1 the fuel branch is
unreachable because the source breaks once the page counter passes 20. -/
def fetchLoop (gh : Backend) :
    Nat → Nat → List Item → List String → List (List Item) → Nat → FetchResult
  | 0, _, all_items, queries, pages, _ => ⟨all_items, queries, pages, false⟩
  | fuel + 1, page, all_items, queries, pages, fetched_count =>
    if fetched_count ≠ BATCH_SIZE then ⟨all_items, queries, pages, false⟩
    else
      let page' := page + 1
      let last_created := ((all_items.getLast?).map Item.createdAt).getD ""
      if last_created = "" then ⟨all_items, queries, pages, false⟩
      else
        let search_filter := "created:<" ++ last_created
        let items := fetchPage gh queries.length search_filter
        let queries' := queries ++ [search_filter]
        let pages' := pages ++ [items]
        let fetched' := items.length
        if fetched' = 0 then ⟨all_items, queries', pages', false⟩
        else
          let new_items := items.filter fun i => all_items.all fun j => j.number ≠ i.number
          let all_items' := all_items ++ new_items
          if page' > 20 then ⟨all_items', queries', pages', true⟩
          else fetchLoop gh fuel page' all_items' queries' pages' fetched'

/-- The recency filter applied after pagination: keep an item when its
createdAt or updatedAt string is >= the cutoff string (Python compares the
ISO strings directly). -/
def recencyFilter (cutoff_str : String) (items : List Item) : List Item :=
  items.filter fun item => strLe cutoff_str item.createdAt || strLe cutoff_str item.updatedAt

/-- fetch_all_items: first fetch with no search filter, then the pagination
loop, then (when an hours window was given, represented by the cutoff
string computed from the current instant) the recency filter. -/
def fetch_all_items (gh : Backend) (cutoff : Option String) : FetchResult :=
  let items := fetchPage gh 0 ""
  let fetched_count := items.length
  let r := fetchLoop gh 20 1 items [""] [items] fetched_count
  match cutoff with
  | none => r
  | some c => { r with items := recencyFilter c r.items }

/-- Number of items in l carrying the identifier n. -/
def countNum (n : Nat) (l : List Item) : Nat :=
  (l.filter fun i => i.number = n).length

/-- One displayed table row, as built by display_table. -/
structure Row where
  number : String
  title : String
  state : String
  author : String
  labels : String
  updated : String
deriving DecidableEq, Repr

/-- The row display_table builds for one item: title truncated to its first
47 characters plus "..." when longer than 50, labels joined with ", " and
truncated to their first 27 characters plus "..." when longer than 30,
updated date cut to 10 characters. -/
def rowOfItem (item : Item) : Row where
  number := toString item.number
  title :=
    if item.title.length > 50 then strTake item.title 47 ++ "..." else item.title
  state := item.state
  author := item.author
  labels :=
    let labels := joinComma item.labels
    if labels.length > 30 then strTake labels 27 ++ "..." else labels
  updated := strTake item.updatedAt 10

/-- The table presenter: the rows actually added (only the first 50 items)
and the optional trailing "... and N more items" message. -/
def display_table (items : List Item) : List Row × Option String :=
  ((items.take 50).map rowOfItem,
    if items.length > 50 then
      some ("... and " ++ toString (items.length - 50) ++ " more items")
    else none)

/-- Outcome of the gh repo view subprocess call. -/
inductive CmdResult where
  | ok : String → CmdResult
  | err : CmdResult
deriving DecidableEq, Repr

/-- get_current_repo: non-zero exit raises typer.Exit(1); success returns
the stripped stdout. -/
def get_current_repo : CmdResult → Except Nat String
  | CmdResult.ok stdout => Except.ok (strip stdout)
  | CmdResult.err => Except.error 1

/-- target_repo = repo or await get_current_repo(): the explicit repository
when given and truthy (Python treats "" as falsy), otherwise the externally
resolved one. -/
def resolve_repo (repo : Option String) (ghRepo : CmdResult) : Except Nat String :=
  match repo with
  | some r => if r = "" then get_current_repo ghRepo else Except.ok r
  | none => get_current_repo ghRepo

/-- The issues command body up to the fetched item list: resolve the target
repository (aborting with exit code 1 on failure, producing no items), then
run the paginated fetch. -/
def issues_cmd (repo : Option String) (ghRepo : CmdResult) (gh : Backend)
    (cutoff : Option String) : Except Nat (List Item) :=
  match resolve_repo repo ghRepo with
  | Except.error e => Except.error e
  | Except.ok _ => Except.ok (fetch_all_items gh cutoff).items

/-- The --state enum (str values "all"/"open"/"closed"). -/
inductive ItemState where
  | ALL
  | OPEN
  | CLOSED
deriving DecidableEq, Repr

/-- The str value of an ItemState member. -/
def ItemState.value : ItemState → String
  | ItemState.ALL => "all"
  | ItemState.OPEN => "open"
  | ItemState.CLOSED => "closed"

/-- Effective state filter of the issues command (default ItemState.ALL). -/
def issues_state (state : Option ItemState) : ItemState :=
  state.getD ItemState.ALL

/-- Effective state filter of the prs command (default ItemState.OPEN). -/
def prs_state (state : Option ItemState) : ItemState :=
  state.getD ItemState.OPEN

/-- Effective state filter of the all command (default ItemState.ALL). -/
def fetch_all_state (state : Option ItemState) : ItemState :=
  state.getD ItemState.ALL

/-- Concrete item with identifier 0 and creation timestamp "a". -/
def itemA : Item := ⟨0, "", "", "a", "a", [], ""⟩

/-- Concrete item with identifier 1 and creation timestamp "b". -/
def itemB : Item := ⟨1, "", "", "b", "b", [], ""⟩

/-- Concrete item with identifier 0 and creation timestamp "t". -/
def itemT : Item := ⟨0, "", "", "t", "t", [], ""⟩

/-- Concrete item with identifier 7. -/
def dupItem : Item := ⟨7, "", "", "c", "c", [], ""⟩

/-- A full first page (500 items) whose earliest-created item (timestamp
"a") sits at the front, so the last item's timestamp "b" is not the
minimum. -/
def pageC1 : List Item := itemA :: List.replicate 499 itemB

/-- Backend returning pageC1 on the first query and nothing afterwards. -/
def ghC1 : Backend := fun q _ => if q = 0 then GhResult.ok pageC1 else GhResult.ok []

/-- A full page of 500 identical items. -/
def stdPage : List Item := List.replicate 500 itemT

/-- Backend that answers every query with a full page of 500 items. -/
def ghC2 : Backend := fun _ _ => GhResult.ok stdPage

/-- Backend whose first page contains the same identifier twice (and is
shorter than the batch size, so no continuation query is issued). -/
def ghC3 : Backend := fun _ _ => GhResult.ok [dupItem, dupItem]

/-- A full first page (500 items) containing identifier 7 twice. -/
def pageC4 : List Item := dupItem :: dupItem :: List.replicate 498 itemB

/-- Backend whose first page is pageC4 and whose continuation page again
returns identifier 7 (a boundary overlap between consecutive pages). -/
def ghC4 : Backend := fun q _ => if q = 0 then GhResult.ok pageC4 else GhResult.ok [dupItem]

/-- Small backend answering every query with the single item itemB. -/
def ghSmall : Backend := fun _ _ => GhResult.ok [itemB]

/-- Backend whose every subprocess call exits non-zero. -/
def ghErr : Backend := fun _ _ => GhResult.exitError

/-- Concrete item whose title has 51 characters and whose joined labels
string has 42 characters. -/
def longItem : Item :=
  ⟨5, "aaaaaaaaaaaaaaaaaaaaaaaaaaaaaaaaaaaaaaaaaaaaaaaaaaa", "open", "c", "u",
    ["aaaaaaaaaaaaaaaaaaaa", "bbbbbbbbbbbbbbbbbbbb"], "me"⟩

/-! Helper lemmas. -/

theorem charListLe_refl (l : List Char) : charListLe l l = true := by
  induction l with
  | nil => rfl
  | cons a as ih => simp [charListLe, ih]

theorem strLe_refl (a : String) : strLe a a = true := charListLe_refl a.data

theorem charListLt_le_false {a b : List Char} (h : charListLt a b = true) :
    charListLe b a = false := by
  induction a generalizing b with
  | nil =>
    cases b with
    | nil => simp [charListLt] at h
    | cons y ys => simp [charListLe]
  | cons x xs ih =>
    cases b with
    | nil => simp [charListLt] at h
    | cons y ys =>
      by_cases hxy : x < y
      · have hne : ¬ y < x := lt_asymm hxy
        have hne2 : ¬ y = x := fun he => absurd hxy (by simp [he])
        simp [charListLe, hne, hne2]
      · by_cases heq : x = y
        · subst heq
          simp only [charListLt, if_neg hxy, if_pos rfl] at h
          simp [charListLe, hxy, ih h]
        · simp [charListLt, hxy, heq] at h

theorem strLt_le_false {a b : String} (h : strLt a b = true) : strLe b a = false :=
  charListLt_le_false h

theorem filter_self_nil (l : List Item) :
    (l.filter fun i => l.all fun j => j.number ≠ i.number) = [] := by
  rw [List.filter_eq_nil_iff]
  intro a ha
  simp only [List.all_eq_true, decide_eq_true_eq]
  push_neg
  exact ⟨a, ha, rfl⟩

theorem getLast?_replicate_item (n : Nat) (a : Item) :
    (List.replicate (n + 1) a).getLast? = some a := by
  induction n with
  | zero => rfl
  | succ m ih =>
    rw [List.replicate_succ, List.replicate_succ] at *
    rwa [List.getLast?_cons_cons]

theorem fetchLoop_ne_batch (gh : Backend) (fuel page : Nat) (acc : List Item)
    (qs : List String) (pages : List (List Item)) (fc : Nat) (h : fc ≠ BATCH_SIZE) :
    fetchLoop gh fuel page acc qs pages fc = ⟨acc, qs, pages, false⟩ := by
  cases fuel with
  | zero => rfl
  | succ f => simp only [fetchLoop]; rw [if_pos h]

theorem countNum_append (n : Nat) (a b : List Item) :
    countNum n (a ++ b) = countNum n a + countNum n b := by
  simp [countNum, List.filter_append]

theorem countNum_le_of_sublist {l₁ l₂ : List Item} (n : Nat) (h : List.Sublist l₁ l₂) :
    countNum n l₁ ≤ countNum n l₂ :=
  List.Sublist.length_le (h.filter _)

theorem countNum_eq_zero {n : Nat} {l : List Item} (h : ∀ i ∈ l, i.number ≠ n) :
    countNum n l = 0 := by
  unfold countNum
  rw [List.length_eq_zero, List.filter_eq_nil_iff]
  intro a ha
  simp [h a ha]

theorem countNum_pos {n : Nat} {l : List Item} (h : ∃ i ∈ l, i.number = n) :
    1 ≤ countNum n l := by
  obtain ⟨i, hi, hn⟩ := h
  have hmem : i ∈ l.filter fun i => i.number = n :=
    List.mem_filter.mpr ⟨hi, by simp [hn]⟩
  exact List.length_pos_of_mem hmem

theorem countNum_new_of_mem {n : Nat} {acc items : List Item}
    (h : ∃ j ∈ acc, j.number = n) :
    countNum n (items.filter fun i => acc.all fun j => j.number ≠ i.number) = 0 := by
  apply countNum_eq_zero
  intro i hi hn
  obtain ⟨j, hj, hjn⟩ := h
  have hall := (List.mem_filter.mp hi).2
  simp only [List.all_eq_true, decide_eq_true_eq] at hall
  exact hall j hj (by rw [hjn, hn])

theorem countNum_extend_le {n : Nat} {acc items : List Item}
    (hacc : countNum n acc ≤ 1) (hitems : countNum n items ≤ 1) :
    countNum n (acc ++ items.filter fun i => acc.all fun j => j.number ≠ i.number) ≤ 1 := by
  rw [countNum_append]
  by_cases h : ∃ j ∈ acc, j.number = n
  · rw [countNum_new_of_mem h]
    omega
  · push_neg at h
    rw [countNum_eq_zero h]
    have hle : countNum n (items.filter fun i => acc.all fun j => j.number ≠ i.number) ≤
        countNum n items :=
      countNum_le_of_sublist n (List.filter_sublist items)
    omega

theorem fetchLoop_count_le (gh : Backend) (n : Nat)
    (hp : ∀ q f, countNum n (fetchPage gh q f) ≤ 1) :
    ∀ fuel page acc qs pages fc, countNum n acc ≤ 1 →
      countNum n (fetchLoop gh fuel page acc qs pages fc).items ≤ 1 := by
  intro fuel
  induction fuel with
  | zero => intro page acc qs pages fc hacc; exact hacc
  | succ f ih =>
    intro page acc qs pages fc hacc
    simp only [fetchLoop]
    split
    · exact hacc
    · split
      · exact hacc
      · split
        · exact hacc
        · split
          · exact countNum_extend_le hacc (hp _ _)
          · exact ih _ _ _ _ _ (countNum_extend_le hacc (hp _ _))

theorem fetchLoop_sublist (gh : Backend) :
    ∀ fuel page acc qs pages fc, List.Sublist acc pages.flatten →
      List.Sublist (fetchLoop gh fuel page acc qs pages fc).items
        (fetchLoop gh fuel page acc qs pages fc).pages.flatten := by
  intro fuel
  induction fuel with
  | zero => intro page acc qs pages fc h; exact h
  | succ f ih =>
    intro page acc qs pages fc h
    simp only [fetchLoop]
    split
    · exact h
    · split
      · exact h
      · split
        · refine h.trans ?_
          rw [List.flatten_append]
          exact List.sublist_append_left _ _
        · split
          · rw [List.flatten_append]
            simp only [List.flatten_cons, List.flatten_nil, List.append_nil]
            exact h.append (List.filter_sublist _)
          · apply ih
            rw [List.flatten_append]
            simp only [List.flatten_cons, List.flatten_nil, List.append_nil]
            exact h.append (List.filter_sublist _)

theorem fetchLoop_queries_ext (gh : Backend) :
    ∀ fuel page acc qs pages fc,
      ∃ t, (fetchLoop gh fuel page acc qs pages fc).queries = qs ++ t := by
  intro fuel
  induction fuel with
  | zero => intro page acc qs pages fc; exact ⟨[], by simp [fetchLoop]⟩
  | succ f ih =>
    intro page acc qs pages fc
    simp only [fetchLoop]
    split
    · exact ⟨[], by simp⟩
    · split
      · exact ⟨[], by simp⟩
      · split
        · exact ⟨_, rfl⟩
        · split
          · exact ⟨_, rfl⟩
          · obtain ⟨t, ht⟩ := ih (page + 1)
              (acc ++ (fetchPage gh qs.length
                  ("created:<" ++ (Option.map Item.createdAt acc.getLast?).getD "")).filter
                  (fun i => acc.all fun j => j.number ≠ i.number))
              (qs ++ ["created:<" ++ (Option.map Item.createdAt acc.getLast?).getD ""])
              (pages ++ [fetchPage gh qs.length
                  ("created:<" ++ (Option.map Item.createdAt acc.getLast?).getD "")])
              (fetchPage gh qs.length
                  ("created:<" ++ (Option.map Item.createdAt acc.getLast?).getD "")).length
            refine ⟨("created:<" ++ (Option.map Item.createdAt acc.getLast?).getD "") :: t, ?_⟩
            rw [ht, List.append_assoc, List.singleton_append]

theorem fetchLoop_queries_len (gh : Backend) :
    ∀ fuel page acc qs pages fc,
      (fetchLoop gh fuel page acc qs pages fc).queries.length ≤ qs.length + fuel := by
  intro fuel
  induction fuel with
  | zero => intro page acc qs pages fc; simp [fetchLoop]
  | succ f ih =>
    intro page acc qs pages fc
    simp only [fetchLoop]
    split
    · simp
    · split
      · simp
      · split
        · simp
        · split
          · simp
          · exact le_trans (ih _ _ _ _ _)
              (by simp only [List.length_append, List.length_singleton]; omega)

theorem strTake_length (s : String) (n : Nat) : (strTake s n).length = min n s.length :=
  List.length_take n s.data

theorem fetch_all_items_none (gh : Backend) :
    fetch_all_items gh none =
      fetchLoop gh 20 1 (fetchPage gh 0 "") [""] [fetchPage gh 0 ""]
        (fetchPage gh 0 "").length := rfl

theorem fetch_all_items_some (gh : Backend) (c : String) :
    fetch_all_items gh (some c) =
      { fetch_all_items gh none with
        items := recencyFilter c (fetch_all_items gh none).items } := rfl

theorem fetch_all_count_le (gh : Backend) (cutoff : Option String) (n : Nat)
    (hp : ∀ q sf, countNum n (fetchPage gh q sf) ≤ 1) :
    countNum n (fetch_all_items gh cutoff).items ≤ 1 := by
  have hcore : countNum n (fetch_all_items gh none).items ≤ 1 := by
    rw [fetch_all_items_none]
    exact fetchLoop_count_le gh n hp 20 1 _ _ _ _ (hp 0 "")
  cases cutoff with
  | none => exact hcore
  | some c =>
    rw [fetch_all_items_some]
    exact le_trans (countNum_le_of_sublist n (List.filter_sublist _)) hcore

theorem fetch_all_sublist (gh : Backend) (cutoff : Option String) :
    List.Sublist (fetch_all_items gh cutoff).items
      (fetch_all_items gh cutoff).pages.flatten := by
  have hcore : List.Sublist (fetch_all_items gh none).items
      (fetch_all_items gh none).pages.flatten := by
    rw [fetch_all_items_none]
    apply fetchLoop_sublist
    simp [List.flatten]
  cases cutoff with
  | none => exact hcore
  | some c =>
    rw [fetch_all_items_some]
    exact (List.filter_sublist _).trans hcore

/-! Claim theorems. -/

/-- C5: the recency filter is applied once, after all pages are fetched
(pagination is unaffected by the cutoff); it retains exactly the
accumulated items whose creation OR last-update timestamp is at least the
cutoff, with an inclusive boundary: an item whose update timestamp equals
the cutoff is retained, and an item strictly older than the cutoff on both
its created and updated fields is excluded. -/
theorem C5_recency_filter :
    (∀ (gh : Backend) (c : String),
        (fetch_all_items gh (some c)).items =
          recencyFilter c (fetch_all_items gh none).items ∧
        (fetch_all_items gh (some c)).queries = (fetch_all_items gh none).queries) ∧
    (∀ (c : String) (l : List Item) (item : Item),
        item ∈ recencyFilter c l ↔
          item ∈ l ∧ (strLe c item.createdAt = true ∨ strLe c item.updatedAt = true)) ∧
    (∀ (c : String) (l : List Item) (item : Item),
        item ∈ l → item.updatedAt = c → item ∈ recencyFilter c l) ∧
    (∀ (c : String) (l : List Item) (item : Item),
        strLt item.createdAt c = true → strLt item.updatedAt c = true →
        item ∉ recencyFilter c l) := by
  refine ⟨fun gh c => ⟨rfl, rfl⟩, ?_, ?_, ?_⟩
  · intro c l item
    simp [recencyFilter, List.mem_filter]
  · intro c l item hmem hupd
    apply List.mem_filter.mpr
    refine ⟨hmem, ?_⟩
    have : strLe c item.updatedAt = true := by rw [hupd]; exact strLe_refl c
    simp [this]
  · intro c l item hc hu hmem
    have h2 := (List.mem_filter.mp hmem).2
    rw [strLt_le_false hc, strLt_le_false hu] at h2
    simp at h2

/-- C5 witness: itemB (updatedAt "b") is retained at cutoff "b"; itemA
(createdAt and updatedAt both "a") is excluded at cutoff "b". -/
theorem C5_recency_filter_witness :
    itemB ∈ recencyFilter "b" [itemB] ∧ itemA ∉ recencyFilter "b" [itemA] :=
  ⟨C5_recency_filter.2.2.1 "b" [itemB] itemB (by decide) (by decide),
   C5_recency_filter.2.2.2 "b" [itemA] itemA (by decide) (by decide)⟩

/-- C7: when the first page has fewer than BATCH_SIZE items, exactly one
query is issued (with no search filter) and, with no hours filter, the
returned accumulator is exactly that page's items in order. -/
theorem C7_single_page (gh : Backend)
    (h : (fetchPage gh 0 "").length < BATCH_SIZE) :
    fetch_all_items gh none = ⟨fetchPage gh 0 "", [""], [fetchPage gh 0 ""], false⟩ := by
  rw [fetch_all_items_none]
  exact fetchLoop_ne_batch gh 20 1 _ _ _ _ (Nat.ne_of_lt h)

/-- C7 witness: a backend whose first page holds one item. -/
theorem C7_single_page_witness :
    fetch_all_items ghSmall none = ⟨[itemB], [""], [[itemB]], false⟩ :=
  C7_single_page ghSmall (by decide)

/-- C9: when no repository is given and resolution fails, the command
aborts with exit code 1 and no partial result; when resolution succeeds or
a (non-empty) repository is given, the command does not fail that way. -/
theorem C9_repo_resolution :
    (∀ (gh : Backend) (cutoff : Option String),
        issues_cmd none CmdResult.err gh cutoff = Except.error 1) ∧
    (∀ (s : String) (gh : Backend) (cutoff : Option String),
        issues_cmd none (CmdResult.ok s) gh cutoff =
          Except.ok (fetch_all_items gh cutoff).items) ∧
    (∀ (r : String) (ghRepo : CmdResult) (gh : Backend) (cutoff : Option String),
        r ≠ "" →
        issues_cmd (some r) ghRepo gh cutoff =
          Except.ok (fetch_all_items gh cutoff).items) := by
  refine ⟨fun gh cutoff => rfl, fun s gh cutoff => rfl, ?_⟩
  intro r ghRepo gh cutoff hr
  simp [issues_cmd, resolve_repo, hr]

/-- C9 witness: an explicit repository avoids the resolver entirely, even
when the resolver subprocess would fail. -/
theorem C9_repo_resolution_witness :
    issues_cmd (some "o/r") CmdResult.err ghSmall none =
      Except.ok (fetch_all_items ghSmall none).items :=
  C9_repo_resolution.2.2 "o/r" CmdResult.err ghSmall none (by decide)

/-- C10: the three commands do not share one default state filter: with
--state omitted, prs defaults to "open" while issues and all default to
"all". -/
theorem C10_default_states :
    (issues_state none).value = "all" ∧
    (prs_state none).value = "open" ∧
    (fetch_all_state none).value = "all" ∧
    issues_state none ≠ prs_state none := by decide

/-- C8: the table presenter shows only the first 50 items; a title longer
than 50 characters becomes its first 47 characters plus "..." (total
length 50), otherwise it is shown unchanged; the joined labels string is
cut to its first 27 characters plus "..." (total length 30) when longer
than 30; and "... and N more items" is printed exactly when the item count
exceeds 50, with N = count - 50. -/
theorem C8_table_presenter :
    (∀ items : List Item, (display_table items).1.length = min 50 items.length) ∧
    (∀ items : List Item, (display_table items).1 = (items.take 50).map rowOfItem) ∧
    (∀ item : Item, 50 < item.title.length →
        (rowOfItem item).title = strTake item.title 47 ++ "..." ∧
        (rowOfItem item).title.length = 50) ∧
    (∀ item : Item, item.title.length ≤ 50 → (rowOfItem item).title = item.title) ∧
    (∀ item : Item, 30 < (joinComma item.labels).length →
        (rowOfItem item).labels = strTake (joinComma item.labels) 27 ++ "..." ∧
        (rowOfItem item).labels.length = 30) ∧
    (∀ items : List Item, 50 < items.length →
        (display_table items).2 =
          some ("... and " ++ toString (items.length - 50) ++ " more items")) ∧
    (∀ items : List Item, items.length ≤ 50 → (display_table items).2 = none) := by
  have hdots : ("..." : String).length = 3 := by decide
  refine ⟨?_, fun items => rfl, ?_, ?_, ?_, ?_, ?_⟩
  · intro items
    simp [display_table]
  · intro item h
    constructor
    · simp only [rowOfItem]
      rw [if_pos h]
    · simp only [rowOfItem]
      rw [if_pos h, String.length_append, strTake_length, hdots]
      omega
  · intro item h
    simp only [rowOfItem]
    rw [if_neg (by omega)]
  · intro item h
    constructor
    · simp only [rowOfItem]
      rw [if_pos h]
    · simp only [rowOfItem]
      rw [if_pos h, String.length_append, strTake_length, hdots]
      omega
  · intro items h
    simp only [display_table]
    rw [if_pos h]
  · intro items h
    simp only [display_table]
    rw [if_neg (by omega)]

/-- C8 witness: a 51-character title is cut to 47 characters plus "...",
a 42-character labels string is cut to 27 characters plus "...", and a
51-item list yields the "... and 1 more items" message. -/
theorem C8_table_presenter_witness :
    ((rowOfItem longItem).title = strTake longItem.title 47 ++ "..." ∧
      (rowOfItem longItem).title.length = 50) ∧
    ((rowOfItem longItem).labels = strTake (joinComma longItem.labels) 27 ++ "..." ∧
      (rowOfItem longItem).labels.length = 30) ∧
    (display_table (List.replicate 51 itemB)).2 =
      some ("... and " ++ toString ((List.replicate 51 itemB).length - 50) ++ " more items") ∧
    (display_table [itemB]).2 = none :=
  ⟨C8_table_presenter.2.2.1 longItem (by decide),
   C8_table_presenter.2.2.2.2.1 longItem (by decide),
   C8_table_presenter.2.2.2.2.2.1 (List.replicate 51 itemB) (by decide),
   C8_table_presenter.2.2.2.2.2.2 [itemB] (by decide)⟩

/-- C1 counterexample: against a backend whose full first page carries its
earliest-created item (timestamp "a") at the front and a later-created
item (timestamp "b") at the end, the continuation query filters on
created:<b, although an already-fetched item was created at "a" < "b" —
so the filter bound is not the minimum creation timestamp. -/
theorem C1_counterexample :
    (fetch_all_items ghC1 none).queries = ["", "created:<" ++ itemB.createdAt] ∧
    itemA ∈ fetchPage ghC1 0 "" ∧
    strLt itemA.createdAt itemB.createdAt = true := by
  refine ⟨by decide, by decide, by decide⟩

/-- C1 (amended): whenever a page came back with exactly BATCH_SIZE items
and the accumulator's last item has a non-empty creation timestamp lc, the
next continuation query issued carries the search filter created:<lc — the
creation timestamp of the LAST item in the accumulator, not the minimum
over the accumulator. -/
theorem C1_amended_continuation (gh : Backend) (fuel page : Nat) (acc : List Item)
    (qs : List String) (pages : List (List Item)) (lc : String)
    (hlc : (Option.map Item.createdAt acc.getLast?).getD "" = lc) (hne : lc ≠ "") :
    ∃ rest, (fetchLoop gh (fuel + 1) page acc qs pages BATCH_SIZE).queries =
      qs ++ ("created:<" ++ lc) :: rest := by
  have hB : ¬ (BATCH_SIZE ≠ BATCH_SIZE) := by simp
  simp only [fetchLoop, hlc, if_neg hB, if_neg hne]
  by_cases h0 : (fetchPage gh qs.length ("created:<" ++ lc)).length = 0
  · simp only [if_pos h0]
    exact ⟨[], rfl⟩
  · simp only [if_neg h0]
    by_cases h20 : page + 1 > 20
    · simp only [if_pos h20]
      exact ⟨[], rfl⟩
    · simp only [if_neg h20]
      obtain ⟨t, ht⟩ := fetchLoop_queries_ext gh fuel (page + 1)
        (acc ++ (fetchPage gh qs.length ("created:<" ++ lc)).filter
            (fun i => acc.all fun j => j.number ≠ i.number))
        (qs ++ ["created:<" ++ lc])
        (pages ++ [fetchPage gh qs.length ("created:<" ++ lc)])
        (fetchPage gh qs.length ("created:<" ++ lc)).length
      exact ⟨t, by rw [ht, List.append_assoc, List.singleton_append]⟩

/-- C1 witness: one concrete continuation step whose accumulator ends in
itemB (createdAt "b"). -/
theorem C1_amended_continuation_witness :
    ∃ rest, (fetchLoop ghSmall (0 + 1) 2 [itemB] [""] [[itemB]] BATCH_SIZE).queries =
      [""] ++ ("created:<" ++ "b") :: rest :=
  C1_amended_continuation ghSmall 0 2 [itemB] [""] [[itemB]] "b" (by decide) (by decide)

/-- C2 counterexample: against a backend returning exactly BATCH_SIZE items
on every query, fetch_all_items issues 21 page queries (the initial query
plus 20 continuation queries), not 20. -/
theorem C2_counterexample :
    (fetch_all_items ghC2 none).queries.length = 21 ∧
    ¬ (fetch_all_items ghC2 none).queries.length ≤ 20 := by
  have h : (fetch_all_items ghC2 none).queries.length = 21 := by decide
  exact ⟨h, by omega⟩

/-- C2 (amended): for every backend the pagination loop terminates after at
most 21 page queries (the initial query plus at most 20 continuation
queries); against an always-full backend exactly 21 queries are issued and
the safety-cap warning branch fires. -/
theorem C2_amended_cap :
    (∀ gh : Backend, (fetch_all_items gh none).queries.length ≤ 21) ∧
    (fetch_all_items ghC2 none).queries.length = 21 ∧
    (fetch_all_items ghC2 none).capHit = true := by
  refine ⟨?_, by decide, by decide⟩
  intro gh
  rw [fetch_all_items_none]
  exact le_trans (fetchLoop_queries_len gh 20 1 _ _ _ _) (by simp)

/-- C2 witness: the query bound instantiated at a concrete backend. -/
theorem C2_amended_cap_witness :
    (fetch_all_items ghSmall none).queries.length ≤ 21 :=
  C2_amended_cap.1 ghSmall

/-- C3 counterexample: a first page that itself contains the same
identifier twice is appended wholesale, so the returned list carries
identifier 7 twice. -/
theorem C3_counterexample :
    (fetch_all_items ghC3 none).items = [dupItem, dupItem] ∧
    ¬ countNum 7 (fetch_all_items ghC3 none).items ≤ 1 := by
  refine ⟨by decide, by decide⟩

/-- C3 (amended): continuation pages are deduplicated against previously
seen identifiers but items inside one page are never deduplicated against
each other; when every page returned by the backend contains each
identifier at most once, the returned list contains each identifier at
most once, and the returned list is a sublist of the concatenation of the
fetched pages (insertion order preserved). -/
theorem C3_amended_dedup :
    (∀ (gh : Backend) (cutoff : Option String) (n : Nat),
        (∀ q sf, countNum n (fetchPage gh q sf) ≤ 1) →
        countNum n (fetch_all_items gh cutoff).items ≤ 1) ∧
    (∀ (gh : Backend) (cutoff : Option String),
        List.Sublist (fetch_all_items gh cutoff).items
          (fetch_all_items gh cutoff).pages.flatten) :=
  ⟨fun gh cutoff n hp => fetch_all_count_le gh cutoff n hp,
   fun gh cutoff => fetch_all_sublist gh cutoff⟩

/-- C3 witness: both amended parts at a concrete single-item backend. -/
theorem C3_amended_dedup_witness :
    countNum 1 (fetch_all_items ghSmall none).items ≤ 1 ∧
    List.Sublist (fetch_all_items ghSmall none).items
      (fetch_all_items ghSmall none).pages.flatten :=
  ⟨C3_amended_dedup.1 ghSmall none 1 (fun q sf => (by decide : countNum 1 [itemB] ≤ 1)),
   C3_amended_dedup.2 ghSmall none⟩

/-- C4 counterexample: pages 1 and 2 share identifier 7 (boundary
overlap), a continuation query is issued, yet the final accumulator
contains identifier 7 twice, because page 1 itself carried it twice and a
page is never deduplicated against itself. -/
theorem C4_counterexample :
    dupItem ∈ fetchPage ghC4 0 "" ∧
    dupItem ∈ fetchPage ghC4 1 ("created:<" ++ "b") ∧
    (fetch_all_items ghC4 none).queries = ["", "created:<" ++ "b"] ∧
    countNum 7 (fetch_all_items ghC4 none).items = 2 := by
  refine ⟨by decide, by decide, by decide, by decide⟩

/-- C4 (amended): every new page is deduplicated against previously seen
identifiers before appending, so when every page returned by the backend
contains a given identifier at most once, and that identifier occurs in
the returned list at all, it occurs there exactly once. -/
theorem C4_exactly_once (gh : Backend) (cutoff : Option String) (n : Nat)
    (hp : ∀ q sf, countNum n (fetchPage gh q sf) ≤ 1)
    (hmem : ∃ i ∈ (fetch_all_items gh cutoff).items, i.number = n) :
    countNum n (fetch_all_items gh cutoff).items = 1 := by
  have h1 := countNum_pos hmem
  have h2 := fetch_all_count_le gh cutoff n hp
  omega

/-- C4 witness: exactly-once at a concrete single-item backend. -/
theorem C4_exactly_once_witness :
    countNum 1 (fetch_all_items ghSmall none).items = 1 :=
  C4_exactly_once ghSmall none 1
    (fun q sf => (by decide : countNum 1 [itemB] ≤ 1)) (by decide)

/-- C6: a non-zero exit and a malformed JSON response are both treated as
zero items for that call; a first-page failure yields an empty result
after one query (no exception); and a continuation-page failure makes the
loop take its zero-items stop, returning exactly the items accumulated so
far (partial results). -/
theorem C6_error_handling :
    (fetch_items_page GhResult.exitError = [] ∧
      fetch_items_page GhResult.parseError = []) ∧
    (∀ (gh : Backend) (cutoff : Option String), fetchPage gh 0 "" = [] →
        (fetch_all_items gh cutoff).items = [] ∧
        (fetch_all_items gh cutoff).queries = [""]) ∧
    (∀ (gh : Backend) (fuel page : Nat) (acc : List Item) (qs : List String)
        (pages : List (List Item)) (lc : String),
        (Option.map Item.createdAt acc.getLast?).getD "" = lc → lc ≠ "" →
        fetchPage gh qs.length ("created:<" ++ lc) = [] →
        fetchLoop gh (fuel + 1) page acc qs pages BATCH_SIZE =
          ⟨acc, qs ++ ["created:<" ++ lc], pages ++ [[]], false⟩) := by
  refine ⟨⟨rfl, rfl⟩, ?_, ?_⟩
  · intro gh cutoff h0
    have hcore : fetch_all_items gh none = ⟨[], [""], [[]], false⟩ := by
      rw [fetch_all_items_none, h0]
      exact fetchLoop_ne_batch gh 20 1 _ _ _ _ (by simp [BATCH_SIZE])
    cases cutoff with
    | none => rw [hcore]; exact ⟨rfl, rfl⟩
    | some c => rw [fetch_all_items_some, hcore]; exact ⟨rfl, rfl⟩
  · intro gh fuel page acc qs pages lc hlc hne h0
    have hB : ¬ (BATCH_SIZE ≠ BATCH_SIZE) := by simp
    simp only [fetchLoop, hlc, if_neg hB, if_neg hne, h0]
    simp

/-- C6 witness: a continuation step against a backend whose subprocess
exits non-zero returns the accumulator unchanged. -/
theorem C6_error_handling_witness :
    fetchLoop ghErr (0 + 1) 2 [itemB] [""] [[itemB]] BATCH_SIZE =
      ⟨[itemB], [""] ++ ["created:<" ++ "b"], [[itemB]] ++ [[]], false⟩ :=
  C6_error_handling.2.2 ghErr 0 2 [itemB] [""] [[itemB]] "b" (by decide) (by decide) rfl

end GhFetch
